import Mathlib

/-!
# Verification of `enlib` adaptive interpolation builder (`interpol/interpol.py`)

Shallow embedding of the adaptive grid-refinement driver `build`
(`src/interpol/interpol.py`, lines 5-61), the forward-difference gradient
builder `grad_forward` (lines 130-143), the `ip_grad` constructor
(lines 93-99) and the cell-index computation shared by
`ip_linear.__call__` (lines 83-85) and `ip_grad.__call__` (lines 102-104).

Numeric values are modelled as exact rationals extended with the IEEE
special values `nan`, `+inf`, `-inf` (type `RVal`), reproducing numpy's
propagation rules for the operations the source uses (`+`, `-`, `*`,
division by a count, `np.minimum`/`np.maximum`, `np.isnan`, comparisons).
Rounding of floating point is idealized away: the claims under study are
about control flow, shapes, index clamping and special-value handling,
none of which depend on rounding.

The target function `func` and the interpolator are parameters of `build`
in the source; they are parameters (`BuildEnv`) here as well.  The source
samples the function at `utils.grid(box, n)` (a regular mesh determined
entirely by `box` and the per-axis counts `n`); since `box` is fixed for
the whole call, `func ∘ grid box` is modelled as a single oracle
`sample : List ℕ → List (List RVal)` giving, for a resolution vector `n`,
the flattened per-output-channel sample values (the numpy array
`func(x).reshape(nout, -1)`).  Likewise `ip(x)` on the same mesh is
`evalIp ip n`, and `interpolator(box, ytrue, *args, **kwargs)` is
`mkIp n ytrue`.

The source `while True:` loop is modelled with explicit fuel
(`runRounds`); a run that exhausts its fuel reports the state it reached,
so invariants "at every point during refinement" are statements about
`runRounds` at every fuel value.
-/

namespace Interpol

/-- A numpy float64 value, idealized to an exact rational plus the IEEE
special values.  `fin q` is an ordinary (finite) value. -/
inductive RVal where
  | nan : RVal
  | pinf : RVal
  | ninf : RVal
  | fin (q : ℚ) : RVal
deriving Repr, DecidableEq

/-- `np.isnan` on one element. -/
def RVal.isNaN : RVal → Bool
  | .nan => true
  | _ => false

/-- `np.isinf` on one element (either sign). -/
def RVal.isInf : RVal → Bool
  | .pinf => true
  | .ninf => true
  | _ => false

/-- IEEE addition with special values: nan propagates, `inf + (-inf) = nan`. -/
def radd : RVal → RVal → RVal
  | .nan, _ => .nan
  | _, .nan => .nan
  | .pinf, .ninf => .nan
  | .ninf, .pinf => .nan
  | .pinf, _ => .pinf
  | _, .pinf => .pinf
  | .ninf, _ => .ninf
  | _, .ninf => .ninf
  | .fin a, .fin b => .fin (a + b)

/-- IEEE negation. -/
def rneg : RVal → RVal
  | .nan => .nan
  | .pinf => .ninf
  | .ninf => .pinf
  | .fin a => .fin (-a)

/-- IEEE subtraction, `a - b = a + (-b)`; in particular `inf - inf = nan`. -/
def rsub (a b : RVal) : RVal := radd a (rneg b)

/-- IEEE multiplication: nan propagates, `inf * 0 = nan`, signs as usual. -/
def rmul : RVal → RVal → RVal
  | .nan, _ => .nan
  | _, .nan => .nan
  | .pinf, .pinf => .pinf
  | .pinf, .ninf => .ninf
  | .ninf, .pinf => .ninf
  | .ninf, .ninf => .pinf
  | .pinf, .fin b => if 0 < b then .pinf else if b < 0 then .ninf else .nan
  | .fin a, .pinf => if 0 < a then .pinf else if a < 0 then .ninf else .nan
  | .ninf, .fin b => if 0 < b then .ninf else if b < 0 then .pinf else .nan
  | .fin a, .ninf => if 0 < a then .ninf else if a < 0 then .pinf else .nan
  | .fin a, .fin b => .fin (a * b)

/-- Division of a value by a natural count (as in `np.mean`): nan and the
infinities keep their sign; a finite value divided by count `0` follows
IEEE `x/0` (`0/0 = nan`, otherwise a signed infinity).  Only used through
`rmean`; every batch in the modelled runs is nonempty. -/
def rdivNat (v : RVal) (n : ℕ) : RVal :=
  match v with
  | .nan => .nan
  | .pinf => .pinf
  | .ninf => .ninf
  | .fin a =>
      if n = 0 then (if a = 0 then .nan else if 0 < a then .pinf else .ninf)
      else .fin (a / (n : ℚ))

/-- `np.minimum` on one element pair: nan propagates. -/
def rmin : RVal → RVal → RVal
  | .nan, _ => .nan
  | _, .nan => .nan
  | .ninf, _ => .ninf
  | _, .ninf => .ninf
  | .pinf, b => b
  | a, .pinf => a
  | .fin a, .fin b => .fin (min a b)

/-- `np.maximum` on one element pair: nan propagates. -/
def rmax : RVal → RVal → RVal
  | .nan, _ => .nan
  | _, .nan => .nan
  | .pinf, _ => .pinf
  | _, .pinf => .pinf
  | .ninf, b => b
  | a, .ninf => a
  | .fin a, .fin b => .fin (max a b)

/-- Sum of a batch, as `np.sum` (left fold from 0). -/
def rsum (xs : List RVal) : RVal := xs.foldl radd (.fin 0)

/-- `np.mean` of a batch: sum divided by the count. -/
def rmean (xs : List RVal) : RVal := rdivNat (rsum xs) xs.length

/-- The square of `np.std(xs)`: `mean((x - mean(xs))^2)`.  The source
compares `std > errlim`; we carry the variance and compare through
`stdExceeds`, which encodes exactly the same predicate (see there). -/
def svar (xs : List RVal) : RVal :=
  rmean (xs.map (fun v => rmul (rsub v (rmean xs)) (rsub v (rmean xs))))

/-- The predicate `sqrt v > lim` for a variance `v` and a finite
tolerance `lim`, i.e. the source's elementwise `err > errlim` where
`err = np.std(...)` and `v = err^2`:
* `v = nan` gives `std = nan` and `nan > lim` is `False`;
* `v = +inf` gives `std = +inf > lim`, `True`;
* `v = -inf` gives `std = sqrt(-inf) = nan`, `False`;
* finite `v`: for `lim < 0` the comparison `std ≥ 0 > lim` is `True`,
  otherwise `std > lim ↔ v > lim^2` (both sides nonnegative).
Exact: no information is lost by carrying `v = std^2` instead of `std`. -/
def stdExceeds (v : RVal) (lim : ℚ) : Bool :=
  match v with
  | .nan => false
  | .pinf => true
  | .ninf => false
  | .fin a => if lim < 0 then true else decide (lim ^ 2 < a)

/-- The source's `any(err > errlim)` for an error vector (one entry per
output channel, carried as variances) against the tolerance vector. -/
def anyExceeds (vs : List RVal) (lims : List ℚ) : Bool :=
  (List.zipWith stdExceeds vs lims).any id

/-- `np.any(np.isnan(y))` over a whole batch (line 47). -/
def hasNaN (y : List (List RVal)) : Bool :=
  y.any (fun c => c.any RVal.isNaN)

/-- Whether a batch holds an infinity (observation helper for the
counterexamples; `np.isnan` — the only check the source makes — does NOT
flag these values). -/
def hasInf (y : List (List RVal)) : Bool :=
  y.any (fun c => c.any RVal.isInf)

/-- `np.min` of a (nonempty) channel: fold of `rmin`.  `np.min` of an
empty array errors in numpy; every channel in the modelled runs is
nonempty, the `[]` case is arbitrary. -/
def rlistMin : List RVal → RVal
  | [] => .nan
  | x :: xs => xs.foldl rmin x

/-- `np.max` of a (nonempty) channel, see `rlistMin`. -/
def rlistMax : List RVal → RVal
  | [] => .nan
  | x :: xs => xs.foldl rmax x

/-- Lines 57-58 of `build`, verbatim including the quirk on line 58:
```
obox[0] = np.minimum(obox[0], np.min(ytrue.reshape(ytrue.shape[0],-1),1))
obox[1] = np.maximum(obox[0], np.max(ytrue.reshape(ytrue.shape[0],-1),1))
```
Line 58 reads the value of `obox[0]` that line 57 just wrote — it
compares the new maximum against the running MINIMUM, not the running
maximum. -/
def oboxUpdate (ob : List RVal × List RVal) (ytrue : List (List RVal)) :
    List RVal × List RVal :=
  (List.zipWith rmin ob.1 (ytrue.map rlistMin),
   List.zipWith rmax (List.zipWith rmin ob.1 (ytrue.map rlistMin))
     (ytrue.map rlistMax))

/-- The error kinds `build` can raise: `OverflowError` for the mesh-size
and wall-clock budgets (lines 31 and 39), `ValueError` for an invalid
sample (line 48). -/
inductive BuildErr where
  | sizeExceeded : BuildErr
  | timeExceeded : BuildErr
  | invalidSample : BuildErr
deriving Repr, DecidableEq

/-- The caller-supplied parameters of `build` plus the two oracles that
absorb the out-of-scope collaborators:
* `sample n` is `func(utils.grid(box, n)).reshape(nout, -1)`: the target
  function's true values on the regular mesh of per-axis counts `n`,
  flattened per output channel;
* `mkIp n y` is `interpolator(box, y, *args, **kwargs)` for a sample
  tensor `y` of mesh shape `n`;
* `evalIp ip n` is `ip(utils.grid(box, n))`, flattened the same way;
* `errlim` is the tolerance vector (one finite entry per output channel);
* `maxsize`/`maxtime` model `maxsize`/`maxtime`, with `0` for the falsy
  values (`None` or `0`) — the source guards both checks with Python
  truthiness (`if maxsize and ...`, `if maxtime and ...`);
* `timeUp k` is the outcome of the k-th evaluation of
  `time.time() - t0 > maxtime` (wall-clock time is an external input). -/
structure BuildEnv (Ip : Type) where
  sample : List ℕ → List (List RVal)
  mkIp : List ℕ → List (List RVal) → Ip
  evalIp : Ip → List ℕ → List (List RVal)
  errlim : List ℚ
  maxsize : ℕ
  maxtime : ℕ
  timeUp : ℕ → Bool

/-- The driver's state: per-axis mesh resolution `n`, current
interpolator `ip`, last measured per-axis error vectors `errs` (carried
as variances, see `stdExceeds`), the running output box `obox` split into
its two rows, and the count `tick` of wall-clock checks made so far. -/
structure BState (Ip : Type) where
  n : List ℕ
  ip : Ip
  errs : List (List RVal)
  obox0 : List RVal
  obox1 : List RVal
  tick : ℕ

variable {Ip : Type}

/-- Lines 42-43: the tentative resolution, `nnew = n.copy();
nnew[i] = nnew[i]*2+1`. -/
def nnewOf (st : BState Ip) (i : ℕ) : List ℕ :=
  st.n.set i (2 * st.n.getD i 0 + 1)

/-- Line 49: `err = np.std((ytrue-yinter).reshape(ytrue.shape[0],-1), 1)`
— the per-output-channel standard deviation of the residual on the
tentative mesh, carried as the variance (see `stdExceeds`). -/
def stepErr (env : BuildEnv Ip) (st : BState Ip) (i : ℕ) : List RVal :=
  List.zipWith (fun t p => svar (List.zipWith rsub t p))
    (env.sample (nnewOf st i)) (env.evalIp st.ip (nnewOf st i))

/-- The state after an ACCEPTED refinement of axis `i` (lines 50-58,
`if any(err > errlim)` branch): the interpolator is rebuilt from the new
true samples, `n` becomes `nnew`, then `errs[i]` and `obox` are updated. -/
def stAccept (env : BuildEnv Ip) (st : BState Ip) (i : ℕ) : BState Ip :=
  { n := nnewOf st i,
    ip := env.mkIp (nnewOf st i) (env.sample (nnewOf st i)),
    errs := st.errs.set i (stepErr env st i),
    obox0 := (oboxUpdate (st.obox0, st.obox1) (env.sample (nnewOf st i))).1,
    obox1 := (oboxUpdate (st.obox0, st.obox1) (env.sample (nnewOf st i))).2,
    tick := st.tick + 1 }

/-- The state after a REJECTED refinement of axis `i` (line 54 `else`
branch plus lines 55-58): `n` and `ip` keep their previous values —
`nnew` is a copy, the source never writes it back in this branch — while
`errs[i]` and `obox` are still updated from the finer sample. -/
def stReject (env : BuildEnv Ip) (st : BState Ip) (i : ℕ) : BState Ip :=
  { st with
    errs := st.errs.set i (stepErr env st i),
    obox0 := (oboxUpdate (st.obox0, st.obox1) (env.sample (nnewOf st i))).1,
    obox1 := (oboxUpdate (st.obox0, st.obox1) (env.sample (nnewOf st i))).2,
    tick := st.tick + 1 }

/-- Lines 37-59: one axis of the inner `for i in range(idim)` loop.
Returns the new state and whether `nok` was incremented (`true` exactly
when the source executed one of its `nok += 1` statements, lines 54/59).
Order as in the source: test `errs[i]` against the tolerance (line 37);
wall-clock check (lines 38-39, under Python truthiness of `maxtime`);
sample at the tentatively doubled resolution and check `np.isnan`
(lines 42-48); compare the residual error (lines 49-54). -/
def stepAxis (env : BuildEnv Ip) (st : BState Ip) (i : ℕ) :
    Except BuildErr (BState Ip × Bool) :=
  if anyExceeds (st.errs.getD i []) env.errlim then
    if env.maxtime ≠ 0 ∧ env.timeUp st.tick then .error .timeExceeded
    else if hasNaN (env.sample (nnewOf st i)) then .error .invalidSample
    else if anyExceeds (stepErr env st i) env.errlim then
      .ok (stAccept env st i, false)
    else
      .ok (stReject env st i, true)
  else .ok (st, true)

/-- The inner loop over the axes, threading the state and the `nok`
counter (lines 36-59). -/
def runAxes (env : BuildEnv Ip) : List ℕ → BState Ip → ℕ →
    Except BuildErr (BState Ip × ℕ)
  | [], st, nok => .ok (st, nok)
  | i :: rest, st, nok =>
      match stepAxis env st i with
      | .error e => .error e
      | .ok sb => runAxes env rest sb.1 (if sb.2 then nok + 1 else nok)

/-- Result of the refinement loop: converged (`done`), aborted with an
error (`failed`), or fuel ran out with the loop still going (`fuelOut`,
carrying the state reached — the source loop itself has no bound). -/
inductive LoopRes (Ip : Type) where
  | done (st : BState Ip) : LoopRes Ip
  | failed (e : BuildErr) : LoopRes Ip
  | fuelOut (st : BState Ip) : LoopRes Ip

/-- Lines 28-60, the `while True` refinement loop with explicit fuel
(one unit per round).  Each round: the mesh-size budget check
(lines 30-31, under Python truthiness of `maxsize`; note it tests the
CURRENT `np.product(n)`, i.e. the mesh committed by previous rounds),
then the pass over all axes, then `if nok >= idim: break` (line 60). -/
def runRounds (env : BuildEnv Ip) (idim : ℕ) : ℕ → BState Ip → LoopRes Ip
  | 0, st => .fuelOut st
  | fuel + 1, st =>
      if env.maxsize ≠ 0 ∧ env.maxsize < st.n.prod then .failed .sizeExceeded
      else
        match runAxes env (List.range idim) st 0 with
        | .error e => .failed e
        | .ok sn =>
            if idim ≤ sn.2 then .done sn.1 else runRounds env idim fuel sn.1

/-- Lines 13-26: the initial state.  `n = [4]*idim` (line 16);
`obox = [np.inf, -np.inf]` (line 18; scalars in the source, broadcast on
first use against the per-channel vectors — materialized per channel
here); the initial interpolator is built from the initial sample with NO
validity check (line 23); `errs = [np.inf]*idim` (line 25, so every axis
is tested at least once). -/
def initState (env : BuildEnv Ip) (idim : ℕ) : BState Ip :=
  { n := List.replicate idim 4,
    ip := env.mkIp (List.replicate idim 4) (env.sample (List.replicate idim 4)),
    errs := List.replicate idim (List.replicate env.errlim.length RVal.pinf),
    obox0 := List.replicate env.errlim.length RVal.pinf,
    obox1 := List.replicate env.errlim.length RVal.ninf,
    tick := 0 }

/-- Line 61, exactly as Python parses it:
`return ip if not return_obox else ip, np.array(obox)`.
The conditional expression binds tighter than the tuple comma, so this is
the tuple `((ip if not return_obox else ip), np.array(obox))` — whose
first element is `ip` in BOTH branches — and the function returns a
2-tuple for every value of `return_obox`. -/
def buildReturnVal (ip : Ip) (return_obox : Bool)
    (obox : List RVal × List RVal) : Ip × (List RVal × List RVal) :=
  ((if !return_obox then ip else ip), obox)

/-- The whole of `build` (lines 5-61): initial state, refinement loop,
return statement.  `none` when the fuel ran out (the source would still
be looping). -/
def buildRun (env : BuildEnv Ip) (idim fuel : ℕ) (return_obox : Bool) :
    Option (Except BuildErr (Ip × (List RVal × List RVal))) :=
  match runRounds env idim fuel (initState env idim) with
  | .done st => some (.ok (buildReturnVal st.ip return_obox (st.obox0, st.obox1)))
  | .failed e => some (.error e)
  | .fuelOut _ => none

/-- Observation helper: the state a finished or fuel-stopped loop is in. -/
def stateOf : LoopRes Ip → Option (BState Ip)
  | .done st => some st
  | .fuelOut st => some st
  | .failed _ => none

/-- Observation helper: did the loop converge normally? -/
def isDone : LoopRes Ip → Bool
  | .done _ => true
  | _ => false

/-- Observation helper: final mesh resolution of a converged run. -/
def finalN : LoopRes Ip → Option (List ℕ)
  | .done st => some st.n
  | _ => none

/-- Observation helper: final output box of a converged run. -/
def finalObox : LoopRes Ip → Option (List RVal × List RVal)
  | .done st => some (st.obox0, st.obox1)
  | _ => none

/-! ## numpy arrays with basic indexing

`grad_forward` and the `ip_grad` constructor manipulate whole ndarrays
through tuples of integer indices and slices.  An ndarray of rationals is
a shape plus row-major flat data; indices are the Python objects the
source builds: integers and `slice(start, stop)` (every slice in
`interpol.py` has step `None`, so the step is omitted). -/

/-- A numpy `float64` ndarray: shape and row-major data. -/
structure Arr where
  shape : List ℕ
  data : List ℚ
deriving Repr, DecidableEq

/-- Errors the array code can raise: `IndexError` (too many indices or an
integer index out of bounds), `AttributeError` (access to a nonexistent
attribute), and a shape mismatch in an elementwise operation or slice
assignment. -/
inductive PyErr where
  | indexError : PyErr
  | attributeError : PyErr
  | shapeError : PyErr
deriving Repr, DecidableEq

/-- One entry of a Python indexing tuple: an integer or a
`slice(start, stop)` with step `None`. -/
inductive PyIdx where
  | int (i : ℤ) : PyIdx
  | slice (start stop : Option ℤ) : PyIdx
deriving Repr, DecidableEq

/-- `slice(None, None, None)` — the `whole` slice of the source. -/
def wholeSlice : PyIdx := .slice none none

/-- `slice(0, -1, None)` — the `start` slice of the source. -/
def startSlice : PyIdx := .slice (some 0) (some (-1))

/-- `slice(1, None, None)` — the `end` slice of the source. -/
def endSlice : PyIdx := .slice (some 1) none

/-- `slice(None, -1)` — the trim applied by the final lines of
`lin_derivs_forward` and `grad_forward`. -/
def trimSlice : PyIdx := .slice none (some (-1))

/-- Resolve one slice bound against an axis of size `sz` (CPython
`slice.indices` for step 1): `None` gives the default, a negative value
counts from the end, and the result is clamped into `[0, sz]`. -/
def resolveBound (sz : ℕ) (dflt : ℕ) : Option ℤ → ℕ
  | none => dflt
  | some v => (max 0 (min (sz : ℤ) (if v < 0 then v + sz else v))).toNat

/-- Resolve one index-tuple entry against an axis of size `sz`, giving
the selected positions along that axis and whether the axis survives in
the result (slices keep the axis, integers drop it).  An integer index is
wrapped once if negative and must land in `[0, sz)` (numpy `IndexError`
otherwise). -/
def resolveAxis (sz : ℕ) : PyIdx → Except PyErr (List ℕ × Bool)
  | .int i =>
      let j := if i < 0 then i + sz else i
      if 0 ≤ j ∧ j < sz then .ok ([j.toNat], false) else .error .indexError
  | .slice start stop =>
      let lo := resolveBound sz 0 start
      let hi := resolveBound sz sz stop
      .ok ((List.range (hi - lo)).map (· + lo), true)

/-- Row-major cartesian product of per-axis position lists: the first
axis varies slowest, as in a C-ordered ndarray. -/
def cartProd : List (List ℕ) → List (List ℕ)
  | [] => [[]]
  | ps :: rest => ps.flatMap (fun p => (cartProd rest).map (p :: ·))

/-- Row-major flat offset of a multi-index in a given shape. -/
def flatIdx (shape ix : List ℕ) : ℕ :=
  (List.zip shape ix).foldl (fun acc p => acc * p.1 + p.2) 0

/-- Resolve a whole indexing tuple against an array: numpy raises
`IndexError: too many indices` when the tuple is longer than the array's
dimensionality, and pads a shorter tuple with full slices. -/
def Arr.select (a : Arr) (idx : List PyIdx) :
    Except PyErr (List (List ℕ × Bool)) :=
  if a.shape.length < idx.length then .error .indexError
  else
    (List.zip (idx ++ List.replicate (a.shape.length - idx.length) wholeSlice)
      a.shape).mapM (fun p => resolveAxis p.2 p.1)

/-- Basic indexing `a[idx]` (the only kind the source uses: integers and
step-`None` slices).  Integer-indexed axes are dropped from the result
shape; sliced axes keep their selected extent. -/
def Arr.getItem (a : Arr) (idx : List PyIdx) : Except PyErr Arr := do
  let axes ← a.select idx
  let offs := (cartProd (axes.map Prod.fst)).map (flatIdx a.shape)
  .ok { shape := axes.filterMap (fun ab => if ab.2 then some ab.1.length else none),
        data := offs.map (fun o => a.data.getD o 0) }

/-- Elementwise subtraction of same-shaped arrays.  numpy would broadcast
differing shapes; on every path in this file both operands are slices of
one array with identical extents, so broadcasting is not modelled and a
mismatch reports a shape error. -/
def Arr.sub (a b : Arr) : Except PyErr Arr :=
  if a.shape = b.shape then .ok ⟨a.shape, List.zipWith (· - ·) a.data b.data⟩
  else .error .shapeError

/-- Slice assignment `a[idx] = v`, writing `v`'s elements over the
selected positions in row-major order.  numpy broadcasting of the RHS is
not modelled (a count mismatch reports a shape error): in `grad_forward`
the RHS always has exactly the selection's extent — and the one
assignment in that function is in fact never reached, because evaluating
its right-hand side raises first (see `grad_forward`). -/
def Arr.setItem (a : Arr) (idx : List PyIdx) (v : Arr) : Except PyErr Arr := do
  let axes ← a.select idx
  let offs := (cartProd (axes.map Prod.fst)).map (flatIdx a.shape)
  if v.data.length = offs.length then
    .ok ⟨a.shape, (List.zip offs v.data).foldl (fun d p => d.set p.1 p.2) a.data⟩
  else .error .shapeError

/-- `np.zeros(shape)`. -/
def Arr.zeros (shape : List ℕ) : Arr :=
  ⟨shape, List.replicate shape.prod 0⟩

/-- `grad_forward(y, npre)` (lines 130-143), verbatim:
```
nin      = y.ndim-npre
dy       = np.zeros((nin,)+y.shape)
for i in range(nin):
    whole,start,end = slice(None,None,None), slice(0,-1,None), slice(1,None,None)
    source = (whole,)*i+(0,)+(0,)*(nin-i-1)
    cells1 = (whole,)*(npre+i)+(start,)+(whole,)*(nin-i-1)
    cells2 = (whole,)*(npre+i)+(end,)  +(whole,)*(nin-i-1)
    dy[i][cells1] = y[source+cells2]-y[source+cells1]
return dy[(slice(None),)+(slice(None,-1),)*(dy.ndim-1)]
```
Python evaluates the right-hand side of the assignment first, so
`y[source+cells2]` runs before the write; `dy[i][cells1] = v` is basic
indexing, equal to `dy[(i,)+cells1] = v`.  `y.ndim - npre` is ℕ
subtraction here; the source would error earlier (from `np.zeros` of a
negative dimension) for `npre > y.ndim`, a case no claim exercises. -/
def grad_forward (y : Arr) (npre : ℕ) : Except PyErr Arr := do
  let nin := y.shape.length - npre
  let dy ← (List.range nin).foldlM (fun dy i => do
      let source := List.replicate i wholeSlice ++ [PyIdx.int 0] ++
        List.replicate (nin - i - 1) (PyIdx.int 0)
      let cells1 := List.replicate (npre + i) wholeSlice ++ [startSlice] ++
        List.replicate (nin - i - 1) wholeSlice
      let cells2 := List.replicate (npre + i) wholeSlice ++ [endSlice] ++
        List.replicate (nin - i - 1) wholeSlice
      let a ← y.getItem (source ++ cells2)
      let b ← y.getItem (source ++ cells1)
      let d ← Arr.sub a b
      dy.setItem (PyIdx.int (i : ℤ) :: cells1) d)
    (Arr.zeros ((y.shape.length - npre) :: y.shape))
  dy.getItem (wholeSlice :: List.replicate (dy.shape.length - 1) trimSlice)

/-- `ip_grad.__init__(box, y)` (lines 94-99).  Lines 95-97 set
`self.box`, `self.n = box.shape[1]`, `self.npre = y.ndim - self.n`; line
98 computes `self.dy = grad_forward(y, self.npre)`; line 99 evaluates
`y[(slice(None,-1),)*y.nsim]`, and `nsim` is not an attribute of numpy
ndarrays (the sibling classes use `ndim`), so if `grad_forward` returned
at all, line 99 would raise `AttributeError`.  The box is a (low, high)
pair of per-axis bound lists, mirroring the source's `2 × ndim_in`
array. -/
def ip_grad_init (box : List ℚ × List ℚ) (y : Arr) : Except PyErr (Arr × Arr) := do
  let n := box.1.length
  let npre := y.shape.length - n
  let _dy ← grad_forward y npre
  .error .attributeError

/-- Observation helper: the error of a failed array computation. -/
def errOf {α : Type} : Except PyErr α → Option PyErr
  | .error e => some e
  | .ok _ => none

/-! ## Cell-index computation of the interpolators

Lines 83-85 (`ip_linear.__call__`) and the identical lines 102-104
(`ip_grad.__call__`):
```
px = ((flatx.T-self.box[0])/(self.box[1]-self.box[0])*np.array(self.ys.shape[-self.n:])).T
ix = (np.floor(px)).astype(int)
ix = np.maximum(0,np.minimum(np.array(self.ys.shape[-self.n:])[:,None]-1,ix))
```
All three lines act elementwise per axis; `self.ys.shape[-self.n:]` is
the per-axis CELL count (the sample count minus one, after the trims in
`lin_derivs_forward`). -/

/-- The per-axis cell index for a query coordinate `q`, axis bounds
`(lo, hi)` and `ncells` cells: rescale into `[0, ncells]`, floor, then
clamp into `[0, ncells-1]`. -/
def cellIndex (lo hi : ℚ) (ncells : ℕ) (q : ℚ) : ℤ :=
  max 0 (min ((ncells : ℤ) - 1) ⌊(q - lo) / (hi - lo) * (ncells : ℚ)⌋)

/-! ## The resolutions reachable by the doubling rule -/

/-- The per-axis resolutions `build` can hold: the initial value 4
(line 16) closed under the doubling rule `n ← 2n+1` (line 43), the only
write to `n` (line 53). -/
inductive ReachRes : ℕ → Prop where
  | base : ReachRes 4
  | step {m : ℕ} : ReachRes m → ReachRes (2 * m + 1)

/-! ## Concrete instantiations

Small concrete target-function/interpolator pairs used by the
counterexamples and witnesses.  `build` is polymorphic over both (they
are caller-supplied parameters), so any instantiation is a legitimate
call.  All use one input axis and one output channel. -/

/-- A target function and interpolator that agree exactly (zero residual
everywhere): the very first tentative refinement is within tolerance. -/
def envC2 : BuildEnv Unit :=
  { sample := fun r => [List.replicate r.prod (RVal.fin 0)],
    mkIp := fun _ _ => (),
    evalIp := fun _ r => [List.replicate r.prod (RVal.fin 0)],
    errlim := [1], maxsize := 0, maxtime := 0, timeUp := fun _ => false }

/-- True samples at resolution 9: per-channel minimum 10, maximum 12. -/
def batch9 : List (List RVal) :=
  [RVal.fin 10 :: RVal.fin 12 :: List.replicate 7 (RVal.fin 10)]

/-- True samples at resolution 19: per-channel minimum 5, maximum 6. -/
def batch19 : List (List RVal) :=
  [RVal.fin 5 :: RVal.fin 6 :: List.replicate 17 (RVal.fin 5)]

/-- A run with two refinement rounds: round 1 measures a large residual
against `batch9` (values around 10-12) and rebuilds; round 2 finds the
rebuilt interpolator exact on `batch19` (values 5-6) and converges.  The
observed output maximum over all true samples is 12, but the obox
maximum after the second update is 6. -/
def envC3 : BuildEnv ℕ :=
  { sample := fun r =>
      if r = [9] then batch9 else if r = [19] then batch19
      else [List.replicate r.prod (RVal.fin 0)],
    mkIp := fun _ _ => 1,
    evalIp := fun _ r =>
      if r = [19] then batch19 else [List.replicate r.prod (RVal.fin 0)],
    errlim := [1 / 10], maxsize := 0, maxtime := 0, timeUp := fun _ => false }

/-- A target function whose INITIAL batch (resolution `[4]`, the one
line 23 feeds straight to the interpolator constructor) contains a NaN;
all refinement batches are finite and already within tolerance. -/
def envC4a : BuildEnv Unit :=
  { sample := fun r =>
      if r = [4] then [[RVal.nan, RVal.fin 0, RVal.fin 0, RVal.fin 0]]
      else [List.replicate r.prod (RVal.fin 0)],
    mkIp := fun _ _ => (),
    evalIp := fun _ r => [List.replicate r.prod (RVal.fin 0)],
    errlim := [1], maxsize := 0, maxtime := 0, timeUp := fun _ => false }

/-- A target function producing `+inf` (not NaN) in the first refinement
batch: `np.isnan` does not flag it, and the residual's std comes out NaN
(`inf - inf` inside the mean), which compares `False` against the
tolerance, so the axis counts as converged. -/
def envC4b : BuildEnv Unit :=
  { sample := fun r =>
      if r = [9] then [RVal.pinf :: List.replicate 8 (RVal.fin 0)]
      else [List.replicate r.prod (RVal.fin 0)],
    mkIp := fun _ _ => (),
    evalIp := fun _ r => [List.replicate r.prod (RVal.fin 0)],
    errlim := [1], maxsize := 0, maxtime := 0, timeUp := fun _ => false }

/-- A target function producing a NaN in the first refinement batch
(resolution `[9]`): the line-47 check fires. -/
def envC4w : BuildEnv Unit :=
  { sample := fun r =>
      if r = [9] then [RVal.nan :: List.replicate 8 (RVal.fin 0)]
      else [List.replicate r.prod (RVal.fin 0)],
    mkIp := fun _ _ => (),
    evalIp := fun _ r => [List.replicate r.prod (RVal.fin 0)],
    errlim := [1], maxsize := 0, maxtime := 0, timeUp := fun _ => false }

/-- `maxsize = 8`, one axis: the mesh reachable after one doubling has
`2*4+1 = 9 > 8` points, yet the run converges without any error because
the round-start check only sees the already-committed `product(n) = 4`. -/
def envC5 : BuildEnv Unit :=
  { sample := fun r => [List.replicate r.prod (RVal.fin 0)],
    mkIp := fun _ _ => (),
    evalIp := fun _ r => [List.replicate r.prod (RVal.fin 0)],
    errlim := [1], maxsize := 8, maxtime := 0, timeUp := fun _ => false }

/-- `maxsize = 3 < 4 = product(n)` at entry: the round-start check fires
immediately. -/
def envC5w : BuildEnv Unit :=
  { sample := fun r => [List.replicate r.prod (RVal.fin 0)],
    mkIp := fun _ _ => (),
    evalIp := fun _ r => [List.replicate r.prod (RVal.fin 0)],
    errlim := [1], maxsize := 3, maxtime := 0, timeUp := fun _ => false }

/-- Plain converging run with no budgets, for the C9 witness. -/
def envC9 : BuildEnv Unit :=
  { sample := fun r => [List.replicate r.prod (RVal.fin 0)],
    mkIp := fun _ _ => (),
    evalIp := fun _ r => [List.replicate r.prod (RVal.fin 0)],
    errlim := [1], maxsize := 0, maxtime := 0, timeUp := fun _ => false }

/-- Plain converging run with both budgets zero, for the C10 witness. -/
def envC10 : BuildEnv Unit :=
  { sample := fun r => [List.replicate r.prod (RVal.fin 0)],
    mkIp := fun _ _ => (),
    evalIp := fun _ r => [List.replicate r.prod (RVal.fin 0)],
    errlim := [1], maxsize := 0, maxtime := 0, timeUp := fun _ => false }

/-- Sample tensor of shape `(2, 3)`: one leading output axis (`npre=1`)
and one spatial axis of 3 points. -/
def yC7 : Arr := ⟨[2, 3], [0, 1, 2, 3, 4, 5]⟩

/-- A valid one-dimensional box `[[0], [1]]`. -/
def boxC6 : List ℚ × List ℚ := ([0], [1])

/-- A scalar-output sample tensor on 4 grid points. -/
def yC6 : Arr := ⟨[4], [0, 1, 2, 3]⟩

/-! ## Helper lemmas -/

lemma forall2_le_refl (l : List ℕ) : List.Forall₂ (· ≤ ·) l l := by
  induction l with
  | nil => exact List.Forall₂.nil
  | cons x xs ih => exact List.Forall₂.cons le_rfl ih

lemma forall2_le_trans {a b c : List ℕ} (h1 : List.Forall₂ (· ≤ ·) a b)
    (h2 : List.Forall₂ (· ≤ ·) b c) : List.Forall₂ (· ≤ ·) a c := by
  induction h1 generalizing c with
  | nil => cases h2; exact List.Forall₂.nil
  | cons hxy h ih =>
      cases h2 with
      | cons hyz h2x => exact List.Forall₂.cons (le_trans hxy hyz) (ih h2x)

lemma forall2_le_set (l : List ℕ) (i : ℕ) :
    List.Forall₂ (· ≤ ·) l (l.set i (2 * l.getD i 0 + 1)) := by
  induction l generalizing i with
  | nil => exact List.Forall₂.nil
  | cons x xs ih =>
      cases i with
      | zero =>
          simp only [List.set_cons_zero, List.getD_cons_zero]
          exact List.Forall₂.cons (by omega) (forall2_le_refl xs)
      | succ j =>
          simp only [List.set_cons_succ, List.getD_cons_succ]
          exact List.Forall₂.cons le_rfl (ih j)

lemma reach_set (l : List ℕ) (i : ℕ) (h : ∀ m ∈ l, ReachRes m) :
    ∀ m ∈ l.set i (2 * l.getD i 0 + 1), ReachRes m := by
  induction l generalizing i with
  | nil => intro m hm; exact absurd hm (List.not_mem_nil m)
  | cons x xs ih =>
      cases i with
      | zero =>
          intro m hm
          rcases List.mem_cons.mp hm with h1 | h1
          · rw [h1]; exact ReachRes.step (h x (List.mem_cons_self x xs))
          · exact h m (List.mem_cons_of_mem x h1)
      | succ j =>
          intro m hm
          rcases List.mem_cons.mp hm with h1 | h1
          · rw [h1]; exact h x (List.mem_cons_self x xs)
          · exact ih j (fun m hm2 => h m (List.mem_cons_of_mem x hm2)) m h1

lemma stepAxis_error (env : BuildEnv Ip) (st : BState Ip) (i : ℕ) (e : BuildErr)
    (h : stepAxis env st i = .error e) :
    e = .invalidSample ∨ (e = .timeExceeded ∧ env.maxtime ≠ 0) := by
  unfold stepAxis at h
  split_ifs at h with hA hB hC hD
  · injection h with h2
    exact Or.inr ⟨h2.symm, hB.1⟩
  · injection h with h2
    exact Or.inl h2.symm

lemma stepAxis_ok_cases (env : BuildEnv Ip) (st : BState Ip) (i : ℕ)
    (st' : BState Ip) (b : Bool) (h : stepAxis env st i = .ok (st', b)) :
    st' = st ∨ st' = stReject env st i ∨ st' = stAccept env st i := by
  unfold stepAxis at h
  split_ifs at h with hA hB hC hD
  · injection h with h2
    rw [Prod.mk.injEq] at h2
    exact Or.inr (Or.inr h2.1.symm)
  · injection h with h2
    rw [Prod.mk.injEq] at h2
    exact Or.inr (Or.inl h2.1.symm)
  · injection h with h2
    rw [Prod.mk.injEq] at h2
    exact Or.inl h2.1.symm

lemma stepAxis_mono (env : BuildEnv Ip) (st : BState Ip) (i : ℕ)
    (st' : BState Ip) (b : Bool) (h : stepAxis env st i = .ok (st', b)) :
    List.Forall₂ (· ≤ ·) st.n st'.n ∧
      ((∀ m ∈ st.n, ReachRes m) → ∀ m ∈ st'.n, ReachRes m) := by
  rcases stepAxis_ok_cases env st i st' b h with h1 | h1 | h1 <;> rw [h1]
  · exact ⟨forall2_le_refl st.n, fun hh => hh⟩
  · exact ⟨forall2_le_refl st.n, fun hh => hh⟩
  · exact ⟨forall2_le_set st.n i, fun hh => reach_set st.n i hh⟩

lemma runAxes_error (env : BuildEnv Ip) :
    ∀ (axes : List ℕ) (st : BState Ip) (nok : ℕ) (e : BuildErr),
      runAxes env axes st nok = .error e →
      e = .invalidSample ∨ (e = .timeExceeded ∧ env.maxtime ≠ 0) := by
  intro axes
  induction axes with
  | nil =>
      intro st nok e h
      simp only [runAxes] at h
      exact Except.noConfusion h
  | cons i rest ih =>
      intro st nok e h
      unfold runAxes at h
      split at h
      · rename_i e2 heq
        injection h with h2
        rw [← h2]
        exact stepAxis_error env st i e2 heq
      · rename_i sb heq
        exact ih sb.1 _ e h

lemma runAxes_mono (env : BuildEnv Ip) :
    ∀ (axes : List ℕ) (st : BState Ip) (nok : ℕ) (st' : BState Ip) (nok' : ℕ),
      runAxes env axes st nok = .ok (st', nok') →
      List.Forall₂ (· ≤ ·) st.n st'.n ∧
        ((∀ m ∈ st.n, ReachRes m) → ∀ m ∈ st'.n, ReachRes m) := by
  intro axes
  induction axes with
  | nil =>
      intro st nok st' nok' h
      simp only [runAxes] at h
      injection h with h2
      rw [Prod.mk.injEq] at h2
      rw [← h2.1]
      exact ⟨forall2_le_refl st.n, fun hh => hh⟩
  | cons i rest ih =>
      intro st nok st' nok' h
      unfold runAxes at h
      split at h
      · exact Except.noConfusion h
      · rename_i sb heq
        have h1 := stepAxis_mono env st i sb.1 sb.2 (by rw [heq])
        have h2 := ih sb.1 _ st' nok' h
        exact ⟨forall2_le_trans h1.1 h2.1, fun hh => h2.2 (h1.2 hh)⟩

lemma runRounds_failed (env : BuildEnv Ip) (idim : ℕ) :
    ∀ (fuel : ℕ) (st : BState Ip) (e : BuildErr),
      runRounds env idim fuel st = .failed e →
      (e = .sizeExceeded → env.maxsize ≠ 0) ∧
        (e = .timeExceeded → env.maxtime ≠ 0) := by
  intro fuel
  induction fuel with
  | zero =>
      intro st e h
      simp only [runRounds] at h
      exact LoopRes.noConfusion h
  | succ f ih =>
      intro st e h
      unfold runRounds at h
      split at h
      · rename_i hg
        injection h with h2
        rw [← h2]
        exact ⟨fun _ => hg.1, fun hc => BuildErr.noConfusion hc⟩
      · rename_i hg
        split at h
        · rename_i e2 heq
          injection h with h2
          rw [← h2]
          rcases runAxes_error env (List.range idim) st 0 e2 heq with h3 | h3
          · rw [h3]
            exact ⟨fun hc => BuildErr.noConfusion hc, fun hc => BuildErr.noConfusion hc⟩
          · rw [h3.1]
            exact ⟨fun hc => BuildErr.noConfusion hc, fun _ => h3.2⟩
        · rename_i sn heq
          split at h
          · exact LoopRes.noConfusion h
          · exact ih sn.1 e h

lemma runRounds_mono (env : BuildEnv Ip) (idim : ℕ) :
    ∀ (fuel : ℕ) (st st' : BState Ip),
      stateOf (runRounds env idim fuel st) = some st' →
      List.Forall₂ (· ≤ ·) st.n st'.n ∧
        ((∀ m ∈ st.n, ReachRes m) → ∀ m ∈ st'.n, ReachRes m) := by
  intro fuel
  induction fuel with
  | zero =>
      intro st st' h
      simp only [runRounds, stateOf] at h
      injection h with h2
      rw [← h2]
      exact ⟨forall2_le_refl st.n, fun hh => hh⟩
  | succ f ih =>
      intro st st' h
      unfold runRounds at h
      split at h
      · simp only [stateOf] at h
        exact Option.noConfusion h
      · split at h
        · simp only [stateOf] at h
          exact Option.noConfusion h
        · rename_i sn heq
          split at h
          · simp only [stateOf] at h
            injection h with h2
            rw [← h2]
            exact runAxes_mono env (List.range idim) st 0 sn.1 sn.2 (by rw [heq])
          · have h1 := runAxes_mono env (List.range idim) st 0 sn.1 sn.2 (by rw [heq])
            have h2 := ih sn.1 st' h
            exact ⟨forall2_le_trans h1.1 h2.1, fun hh => h2.2 (h1.2 hh)⟩

/-! ## Claim theorems -/

attribute [local semireducible] Rat.add Rat.mul Rat.sub Rat.inv

set_option maxRecDepth 100000

/-- C1: line 61, `return ip if not return_obox else ip, np.array(obox)`,
parses as a tuple whose first element is the (degenerate) conditional
expression, so `build` returns the pair `(ip, obox)` for EVERY value of
`return_obox` — the shape of the returned value does not depend on the
flag, contradicting the claim that `return_obox = False` yields only the
interpolator. -/
theorem build_return_always_includes_obox (ip : Ip) (flag : Bool)
    (obox : List RVal × List RVal) : buildReturnVal ip flag obox = (ip, obox) := by
  cases flag <;> rfl

/-- C2 counterexample: a run (`envC2`) in which the first tentative
refinement of axis 0 is already within tolerance.  The loop converges
with the mesh still at its initial resolution `[4]` — the tentative
`n[0] = 2*4+1 = 9` was NOT kept, refuting the claim that the resolution
increase survives a within-tolerance round. -/
theorem within_tolerance_rolls_back_resolution_cex :
    finalN (runRounds envC2 1 2 (initState envC2 1)) = some [4] ∧
      ([4] : List ℕ) ≠ [2 * 4 + 1] :=
  ⟨by decide, by decide⟩

/-- C2 (amended): when the tentatively doubled resolution yields an error
within tolerance for all output channels, BOTH the interpolator rebuild
and the resolution increase are skipped: lines 52-53 (`ip = ...` and
`n = nnew`) sit together inside the `if any(err > errlim)` branch, so the
step keeps `n` and `ip` unchanged (only `errs[i]`, the output box and the
`nok` counter are updated). -/
theorem stepAxis_within_tolerance_rolls_back (env : BuildEnv Ip)
    (st : BState Ip) (i : ℕ)
    (h1 : anyExceeds (st.errs.getD i []) env.errlim = true)
    (h2 : ¬(env.maxtime ≠ 0 ∧ env.timeUp st.tick = true))
    (h3 : ¬(hasNaN (env.sample (nnewOf st i)) = true))
    (h4 : ¬(anyExceeds (stepErr env st i) env.errlim = true)) :
    stepAxis env st i = .ok (stReject env st i, true) ∧
      (stReject env st i).n = st.n ∧ (stReject env st i).ip = st.ip := by
  refine ⟨?_, rfl, rfl⟩
  unfold stepAxis
  rw [if_pos h1, if_neg h2, if_neg h3, if_neg h4]

/-- Witness for the amended C2 at a concrete input. -/
theorem stepAxis_within_tolerance_rolls_back_witness :
    anyExceeds ((initState envC2 1).errs.getD 0 []) envC2.errlim = true ∧
    ¬(envC2.maxtime ≠ 0 ∧ envC2.timeUp (initState envC2 1).tick = true) ∧
    ¬(hasNaN (envC2.sample (nnewOf (initState envC2 1) 0)) = true) ∧
    ¬(anyExceeds (stepErr envC2 (initState envC2 1) 0) envC2.errlim = true) ∧
    stepAxis envC2 (initState envC2 1) 0 =
      .ok (stReject envC2 (initState envC2 1) 0, true) :=
  ⟨by decide, by decide, by decide, by decide,
    (stepAxis_within_tolerance_rolls_back envC2 (initState envC2 1) 0
      (by decide) (by decide) (by decide) (by decide)).1⟩

/-- C3: the output-box maximum tracker DECREASES across updates.  In the
`envC3` run, the round-1 update (true samples with maximum 12) sets
`obox[1] = [12]`, but the converged run ends with `obox = ([5], [6])`:
line 58 computes `np.maximum(obox[0], max(ytrue))` — against the running
MINIMUM — so the previously recorded maximum 12 is lost and the final
maximum 6 is smaller, refuting monotone widening and the independent
min/max trackers. -/
theorem obox_max_tracker_decreases :
    (oboxUpdate ((initState envC3 1).obox0, (initState envC3 1).obox1)
        (envC3.sample (nnewOf (initState envC3 1) 0))).2 = [RVal.fin 12] ∧
    finalObox (runRounds envC3 1 3 (initState envC3 1)) =
      some ([RVal.fin 5], [RVal.fin 6]) ∧
    (6 : ℚ) < 12 :=
  ⟨by decide, by decide, by norm_num⟩

/-- C4 counterexample, two parts.  `envC4a`: the INITIAL sampled batch
contains a NaN, yet `build` converges without any error — line 23 feeds
`func(x)` to the interpolator constructor with no check, and the line-47
check only sees refinement batches.  `envC4b`: a refinement batch
contains `+inf` (non-finite but not NaN); `np.isnan` does not flag it,
the residual's std evaluates to NaN, every `nan > errlim` comparison is
False, and the run converges normally — so a non-finite value does NOT
fail fatally and an interpolator is still returned. -/
theorem nonfinite_sample_not_fatal_cex :
    hasNaN (envC4a.sample (List.replicate 1 4)) = true ∧
    isDone (runRounds envC4a 1 2 (initState envC4a 1)) = true ∧
    hasInf (envC4b.sample (nnewOf (initState envC4b 1) 0)) = true ∧
    isDone (runRounds envC4b 1 2 (initState envC4b 1)) = true :=
  ⟨by decide, by decide, by decide, by decide⟩

/-- C4 (amended): only a NaN, and only in a refinement-round batch, is
fatal: when the batch sampled for a tested axis contains a NaN, the step
raises the invalid-sample error (line 48) before any error statistics,
rebuild or output-box update. -/
theorem stepAxis_nan_fatal (env : BuildEnv Ip) (st : BState Ip) (i : ℕ)
    (h1 : anyExceeds (st.errs.getD i []) env.errlim = true)
    (h2 : ¬(env.maxtime ≠ 0 ∧ env.timeUp st.tick = true))
    (h3 : hasNaN (env.sample (nnewOf st i)) = true) :
    stepAxis env st i = .error .invalidSample := by
  unfold stepAxis
  rw [if_pos h1, if_neg h2, if_pos h3]

/-- Witness for the amended C4 at a concrete input. -/
theorem stepAxis_nan_fatal_witness :
    anyExceeds ((initState envC4w 1).errs.getD 0 []) envC4w.errlim = true ∧
    ¬(envC4w.maxtime ≠ 0 ∧ envC4w.timeUp (initState envC4w 1).tick = true) ∧
    hasNaN (envC4w.sample (nnewOf (initState envC4w 1) 0)) = true ∧
    stepAxis envC4w (initState envC4w 1) 0 = .error .invalidSample :=
  ⟨by decide, by decide, by decide,
    stepAxis_nan_fatal envC4w (initState envC4w 1) 0
      (by decide) (by decide) (by decide)⟩

/-- C5 counterexample: `envC5` has `maxsize = 8`, strictly below the
`2*4+1 = 9` mesh points reachable after one doubling of the single axis,
yet `build` performs the resample at the doubled resolution and converges
with NO `ResourceExceeded` error at all: the line-30 check compares
`np.product(n)` of the mesh committed by PREVIOUS rounds, before any
doubling of this round. -/
theorem size_budget_not_raised_before_resample_cex :
    envC5.maxsize < (nnewOf (initState envC5 1) 0).prod ∧
    isDone (runRounds envC5 1 2 (initState envC5 1)) = true :=
  ⟨by decide, by decide⟩

/-- C5 (amended): the mesh-size budget is enforced at the START of a
round against the already-committed mesh: whenever a round begins with
`maxsize` configured (nonzero) and `product(n) > maxsize`, `build` raises
the resource error before sampling anything that round.  A doubling that
pushes the committed mesh over the budget is therefore only reported at
the start of the NEXT round — after the corresponding resample — and not
at all if that refinement round converged. -/
theorem size_budget_checked_at_round_start (env : BuildEnv Ip)
    (idim fuel : ℕ) (st : BState Ip)
    (h1 : env.maxsize ≠ 0) (h2 : env.maxsize < st.n.prod) :
    runRounds env idim (fuel + 1) st = .failed .sizeExceeded := by
  unfold runRounds
  rw [if_pos ⟨h1, h2⟩]

/-- Witness for the amended C5 at a concrete input. -/
theorem size_budget_checked_at_round_start_witness :
    envC5w.maxsize ≠ 0 ∧ envC5w.maxsize < (initState envC5w 1).n.prod ∧
    runRounds envC5w 1 (0 + 1) (initState envC5w 1) = .failed .sizeExceeded :=
  ⟨by decide, by decide,
    size_budget_checked_at_round_start envC5w 1 0 (initState envC5w 1)
      (by decide) (by decide)⟩

/-- C6: constructing the gradient-extrapolation interpolator does NOT
succeed, for any valid box: `ip_grad.__init__` (line 98) calls
`grad_forward`, which raises `IndexError` for every array with at least
one spatial axis (see `grad_forward_raises_index_error`); even if it
returned, line 99 reads the nonexistent ndarray attribute `nsim` (and
`__call__` reads `self.ys`, which `ip_grad` never assigns).  Evaluated
here at the concrete valid input `box = [[0],[1]]`, `y = [0,1,2,3]`. -/
theorem ip_grad_constructor_raises_index_error :
    errOf (ip_grad_init boxC6 yC6) = some PyErr.indexError := by
  decide

/-- C7: `grad_forward` does not return the claimed `(n,) × output_shape ×
trimmed-spatial` tensor — it raises `IndexError` on its first loop
iteration, because `y[source+cells2]` indexes the `(npre+n)`-dimensional
input with `npre+2n` indices (the `source` tuple belongs to the
`(2,)*n`-headed array of `lin_derivs_forward`, from which the loop was
copied).  Evaluated at the concrete input of shape `(2,3)` with
`npre = 1`, where the claim expects a result of shape `(1, 2, 2)`. -/
theorem grad_forward_raises_index_error :
    errOf (grad_forward yC7 1) = some PyErr.indexError := by
  decide

/-- C8: the per-axis cell-index computation of `ip_linear.__call__`
(lines 83-85) and `ip_grad.__call__` (lines 102-104): for every box axis
with `lo < hi`, at least one cell, and any query coordinate, the computed
index lies in `[0, ncells-1]`; a coordinate exactly on the upper edge
maps to the last valid cell; and coordinates outside the box clamp to the
nearest boundary cell (0 below, `ncells-1` above). -/
theorem cellIndex_clamped_in_range (lo hi q : ℚ) (ncells : ℕ)
    (hbox : lo < hi) (hn : 1 ≤ ncells) :
    0 ≤ cellIndex lo hi ncells q ∧
    cellIndex lo hi ncells q ≤ (ncells : ℤ) - 1 ∧
    cellIndex lo hi ncells hi = (ncells : ℤ) - 1 ∧
    (q < lo → cellIndex lo hi ncells q = 0) ∧
    (hi < q → cellIndex lo hi ncells q = (ncells : ℤ) - 1) := by
  have hw : (0 : ℚ) < hi - lo := sub_pos.mpr hbox
  have hc1 : (1 : ℤ) ≤ (ncells : ℤ) := by exact_mod_cast hn
  have hc0 : (0 : ℤ) ≤ (ncells : ℤ) - 1 := by omega
  have hcq : (0 : ℚ) < (ncells : ℚ) := by
    have : (0 : ℤ) < (ncells : ℤ) := by omega
    exact_mod_cast this
  refine ⟨le_max_left _ _, max_le hc0 (min_le_left _ _), ?_, ?_, ?_⟩
  · unfold cellIndex
    rw [div_self (ne_of_gt hw), one_mul, Int.floor_natCast]
    rw [min_eq_left (by omega), max_eq_right hc0]
  · intro hq
    have hpx : (q - lo) / (hi - lo) * (ncells : ℚ) < 0 :=
      mul_neg_of_neg_of_pos (div_neg_of_neg_of_pos (sub_neg.mpr hq) hw) hcq
    have hfl : ⌊(q - lo) / (hi - lo) * (ncells : ℚ)⌋ < 0 := by
      rw [Int.floor_lt]
      exact_mod_cast hpx
    unfold cellIndex
    rw [min_eq_right (by omega), max_eq_left (by omega)]
  · intro hq
    have hr : 1 < (q - lo) / (hi - lo) :=
      (one_lt_div hw).mpr (by linarith)
    have hpx : (ncells : ℚ) < (q - lo) / (hi - lo) * (ncells : ℚ) := by
      calc (ncells : ℚ) = 1 * (ncells : ℚ) := (one_mul _).symm
        _ < (q - lo) / (hi - lo) * (ncells : ℚ) :=
          mul_lt_mul_of_pos_right hr hcq
    have hfl : (ncells : ℤ) ≤ ⌊(q - lo) / (hi - lo) * (ncells : ℚ)⌋ := by
      rw [Int.le_floor]
      exact_mod_cast le_of_lt hpx
    unfold cellIndex
    rw [min_eq_left (by omega), max_eq_right hc0]

/-- Witness for C8 at a concrete input: box `[0, 1]`, 2 cells, an
interior query, the upper edge, and out-of-box queries on both sides. -/
theorem cellIndex_clamped_in_range_witness :
    (0 : ℚ) < 1 ∧ (1 : ℕ) ≤ 2 ∧
    (0 ≤ cellIndex 0 1 2 (5 / 4) ∧
      cellIndex 0 1 2 (5 / 4) ≤ (2 : ℤ) - 1 ∧
      cellIndex 0 1 2 1 = (2 : ℤ) - 1 ∧
      ((5 / 4 : ℚ) < 0 → cellIndex 0 1 2 (5 / 4) = 0) ∧
      ((1 : ℚ) < 5 / 4 → cellIndex 0 1 2 (5 / 4) = (2 : ℤ) - 1)) :=
  ⟨by norm_num, by norm_num,
    cellIndex_clamped_in_range 0 1 (5 / 4) 2 (by norm_num) (by norm_num)⟩

/-- C9: along every axis the mesh resolution never decreases and always
stays in the closure of the initial value 4 under `n ← 2n+1`.  Stated for
the loop from ANY state (so it covers every intermediate point of a run:
a state reached mid-run is the `fuelOut` state of the same run with less
fuel): if the loop ends (normally or by fuel) in `st'`, then `st'.n`
dominates `st.n` pointwise, membership in the doubling closure is
preserved, and the initial state's resolutions (all 4) are in the
closure. -/
theorem mesh_resolution_monotone_doubling (env : BuildEnv Ip)
    (idim fuel : ℕ) (st st' : BState Ip)
    (h : stateOf (runRounds env idim fuel st) = some st') :
    List.Forall₂ (· ≤ ·) st.n st'.n ∧
      ((∀ m ∈ st.n, ReachRes m) → ∀ m ∈ st'.n, ReachRes m) ∧
      (∀ m ∈ (initState env idim).n, ReachRes m) := by
  have h1 := runRounds_mono env idim fuel st st' h
  refine ⟨h1.1, h1.2, ?_⟩
  intro m hm
  have h2 : m = 4 := List.eq_of_mem_replicate hm
  rw [h2]
  exact ReachRes.base

/-- Witness for C9 at a concrete input. -/
theorem mesh_resolution_monotone_doubling_witness :
    stateOf (runRounds envC9 1 0 (initState envC9 1)) =
      some (initState envC9 1) ∧
    (List.Forall₂ (· ≤ ·) (initState envC9 1).n (initState envC9 1).n ∧
      ((∀ m ∈ (initState envC9 1).n, ReachRes m) →
        ∀ m ∈ (initState envC9 1).n, ReachRes m) ∧
      (∀ m ∈ (initState envC9 1).n, ReachRes m)) :=
  ⟨rfl, mesh_resolution_monotone_doubling envC9 1 0 (initState envC9 1)
    (initState envC9 1) rfl⟩

/-- C10: a zero (falsy) budget disables the corresponding check
entirely: with `maxsize = 0` the loop can never fail with the mesh-size
error, and with `maxtime = 0` never with the wall-clock error — the
source guards both with Python truthiness (`if maxsize and ...` line 30,
`if maxtime and ...` line 38), so a zero budget is not enforced as a zero
allowance. -/
theorem zero_budget_disables_checks (env : BuildEnv Ip) (idim fuel : ℕ)
    (st : BState Ip) :
    (env.maxsize = 0 → runRounds env idim fuel st ≠ .failed .sizeExceeded) ∧
    (env.maxtime = 0 → runRounds env idim fuel st ≠ .failed .timeExceeded) := by
  constructor
  · intro h0 hc
    exact absurd h0 ((runRounds_failed env idim fuel st .sizeExceeded hc).1 rfl)
  · intro h0 hc
    exact absurd h0 ((runRounds_failed env idim fuel st .timeExceeded hc).2 rfl)

/-- Witness for C10 at a concrete input. -/
theorem zero_budget_disables_checks_witness :
    runRounds envC10 1 1 (initState envC10 1) ≠ .failed .sizeExceeded ∧
    runRounds envC10 1 1 (initState envC10 1) ≠ .failed .timeExceeded :=
  ⟨(zero_budget_disables_checks envC10 1 1 (initState envC10 1)).1 rfl,
    (zero_budget_disables_checks envC10 1 1 (initState envC10 1)).2 rfl⟩

end Interpol
